import Mathlib

/-!
Shallow embedding of the map/battle core of the Lehran engine
(`src/engine/src/MapManager.cpp`, `src/engine/include/MapManager.hpp`).

C++ `int` values are modelled as `Int` (all reasoning stays far from the
32-bit overflow boundary), `std::string` as `String`, `std::vector` as
`List`.  The JSON reference tables (`weaponsData`, `classesData`) are
modelled by records that resolve each `json::value(key, default)` access
the way `nlohmann::json` does: a field whose default is independent of the
query is stored already-resolved, a field whose presence matters
(`name`, `weapon_types`) is stored as an `Option`.  Logging and SDL
side effects (sound, textures, rendering) are dropped; they do not touch
any state the theorems mention.
-/

set_option maxRecDepth 16000

namespace Lehran

/-- `WeaponData` record returned by `MapManager::GetWeaponData`
(MapManager.hpp lines 37-51; default constructor zeroes the numeric
stats, `durability = 0`, `isPRF = false`, strings empty). -/
structure WeaponData where
  id : String
  name : String
  type : String
  might : Int
  hit : Int
  crit : Int
  weight : Int
  durability : Int
  range : List Int
  user : String
  isPRF : Bool
deriving Repr, DecidableEq

/-- One JSON weapon record inside a partition array of `weapons.json`.
`id`, `might`, `hit`, `crit`, `weight`, `user` are stored with their
`value(key, default)` resolution already applied (the defaults are fixed:
`""` resp. `0`).  `durability` stores the value of the source
expression `contains && is_null ? -1 : value("durability", 0)`.
`name` stays an `Option` because its default is the queried weapon id. -/
structure WeaponEntry where
  id : String
  name : Option String
  might : Int
  hit : Int
  crit : Int
  weight : Int
  durability : Int
  range : List Int
  user : String
deriving Repr, DecidableEq

/-- The three partitions of `weaponsData` ("generic" / "prf" /
"attributed"), each an object mapping a weapon-type key to an array of
weapon records.  An absent or non-object partition is the empty list. -/
structure WeaponsTable where
  generic : List (String × List WeaponEntry)
  prf : List (String × List WeaponEntry)
  attributed : List (String × List WeaponEntry)
deriving Repr, DecidableEq

/-- First element of a class array in `classes.json`: display name
(resolved by `value("name", "")`) and the optional `weapon_types` array
(`none` when the key is absent). -/
structure ClassEntry where
  name : String
  weapon_types : Option (List String)
deriving Repr, DecidableEq

/-- `classesData`: class id mapped to a class array. -/
abbrev ClassTable := List (String × List ClassEntry)

/-- Scan one partition of the weapon table: first entry whose `id`
matches wins, paired with the weapon-type key of the array holding it
(the nested loops of MapManager.cpp lines 1070-1146). -/
def findEntry (part : List (String × List WeaponEntry)) (weaponId : String) :
    Option (String × WeaponEntry) :=
  match part with
  | [] => none
  | (ty, arr) :: rest =>
    match arr.find? (fun w => w.id == weaponId) with
    | some w => some (ty, w)
    | none => findEntry rest weaponId

/-- `MapManager::GetWeaponData` (MapManager.cpp lines 1063-1148): search
"generic", then "prf", then "attributed"; fall back to a default record
whose `name` is the queried id. -/
def GetWeaponData (weaponsData : WeaponsTable) (weaponId : String) : WeaponData :=
  match findEntry weaponsData.generic weaponId with
  | some (ty, w) =>
    { id := weaponId, name := w.name.getD weaponId, type := ty,
      might := w.might, hit := w.hit, crit := w.crit, weight := w.weight,
      durability := w.durability, range := w.range, user := "", isPRF := false }
  | none =>
    match findEntry weaponsData.prf weaponId with
    | some (ty, w) =>
      { id := weaponId, name := w.name.getD weaponId, type := ty,
        might := w.might, hit := w.hit, crit := w.crit, weight := w.weight,
        durability := w.durability, range := w.range, user := w.user, isPRF := true }
    | none =>
      match findEntry weaponsData.attributed weaponId with
      | some (ty, w) =>
        { id := weaponId, name := w.name.getD weaponId, type := ty,
          might := w.might, hit := w.hit, crit := w.crit, weight := w.weight,
          durability := w.durability, range := w.range, user := "", isPRF := false }
      | none =>
        { id := weaponId, name := weaponId, type := "", might := 0, hit := 0,
          crit := 0, weight := 0, durability := 0, range := [], user := "",
          isPRF := false }

/-- A unit on the map (`MapUnit`, MapManager.hpp lines 53-77).  The C++
field `def` is spelled `defStat` (`def` is reserved in Lean). -/
structure MapUnit where
  type : String
  unitId : String
  name : String
  className : String
  level : Int
  x : Int
  y : Int
  hp : Int
  maxHp : Int
  str : Int
  mag : Int
  skl : Int
  spd : Int
  lck : Int
  defStat : Int
  res : Int
  con : Int
  mov : Int
  inventory : List String
  equippedItemIndex : Int
  hasMoved : Bool
deriving Repr, DecidableEq

/-- The `MapUnit()` default constructor (MapManager.hpp lines 74-76). -/
instance : Inhabited MapUnit :=
  ⟨{ type := "", unitId := "", name := "", className := "", level := 1,
     x := 0, y := 0, hp := 20, maxHp := 20, str := 5, mag := 5, skl := 5,
     spd := 5, lck := 5, defStat := 5, res := 5, con := 5, mov := 5,
     inventory := [], equippedItemIndex := -1, hasMoved := false }⟩

/-- The class scan of `MapManager::CanUnitWieldWeapon` (MapManager.cpp
lines 1158-1173): some class array is nonempty, its first element's
display name matches the unit's class name, and its `weapon_types` array
contains the weapon's type.  The loop keeps scanning on a failed match,
so `List.any` is the faithful translation. -/
def classGrantsWeapon (classesData : ClassTable) (className : String)
    (weaponType : String) : Bool :=
  classesData.any (fun entry =>
    match entry.2 with
    | [] => false
    | c :: _ =>
      c.name == className &&
        (match c.weapon_types with
         | some types => types.any (fun t => t == weaponType)
         | none => false))

/-- `MapManager::CanUnitWieldWeapon` (MapManager.cpp lines 1151-1176). -/
def CanUnitWieldWeapon (classesData : ClassTable) (unit : MapUnit)
    (weapon : WeaponData) : Bool :=
  if weapon.isPRF && !(weapon.user == "") then weapon.user == unit.unitId
  else classGrantsWeapon classesData unit.className weapon.type

/-- The `MapManager` state relevant to the interaction core (the fields
of MapManager.hpp lines 79-141 read or written by the embedded
operations; renderer handles, textures and sound pointers are dropped).
`scale` is set to `3.0f` by the constructor and never reassigned, so the
recurring `static_cast<int>(tileSize * scale)` is embedded as
`3 * tileSize` (exact for every in-range tile size). -/
structure MapState where
  tileSize : Int
  mapWidth : Int
  mapHeight : Int
  units : List MapUnit
  weaponsData : WeaponsTable
  classesData : ClassTable
  cameraX : Int
  cameraY : Int
  cursorX : Int
  cursorY : Int
  selectedUnitIndex : Int
  moveRangeTiles : List (Int × Int)
  attackRangeTiles : List (Int × Int)
  showActionMenu : Bool
  selectedActionIndex : Int
  originalUnitX : Int
  originalUnitY : Int
  showInventoryMenu : Bool
  selectedInventoryIndex : Int
  inventoryUnitIndex : Int
  showDropConfirmation : Bool
  originalInventory : List String
  originalEquippedIndex : Int
  showUnitInfo : Bool
  unitInfoIndex : Int
deriving Repr, DecidableEq

/-- `units[i]` read access.  The source performs the unchecked
`std::vector` access, which is undefined outside the bounds; every
theorem below reads it only under an in-bounds hypothesis, so the
out-of-range fallback to the default-constructed unit is never
exercised. -/
def getUnit (s : MapState) (i : Int) : MapUnit :=
  s.units.getD i.toNat default

/-- `units[i] = ...` write access, same convention as `getUnit`:
in-bounds writes match the source, out-of-bounds writes (undefined in
the source) leave the roster unchanged. -/
def updateUnit (s : MapState) (i : Int) (f : MapUnit → MapUnit) : MapState :=
  if 0 ≤ i then { s with units := s.units.set i.toNat (f (getUnit s i)) }
  else s

/-- The index sequence of a `for (int v = 0; v < n; v++)` loop. -/
def intRange (n : Int) : List Int :=
  (List.range n.toNat).map (fun k : Nat => (k : Int))

/-- All map tiles `(x, y)` in the order produced by the row-major double
loops of the range calculators (`y` outer, `x` inner). -/
def allTiles (w h : Int) : List (Int × Int) :=
  (intRange h).flatMap (fun y => (intRange w).map (fun x => (x, y)))

/-- The linear scan of `MapManager::GetUnitAtPosition`
(MapManager.cpp lines 755-762), index accumulator made explicit. -/
def unitIdxAt (units : List MapUnit) (x y : Int) (i : Int) : Int :=
  match units with
  | [] => -1
  | u :: rest => if u.x = x ∧ u.y = y then i else unitIdxAt rest x y (i + 1)

/-- `MapManager::GetUnitAtPosition`: index of the first unit standing on
`(x, y)`, `-1` when the tile is free. -/
def GetUnitAtPosition (s : MapState) (x y : Int) : Int :=
  unitIdxAt s.units x y 0

/-- The tile list built by `MapManager::CalculateMovementRange`
(MapManager.cpp lines 808-837): every in-bounds tile whose Manhattan
distance from the selected unit is at most `unit.mov` and whose first
occupant (if any) is the selected unit itself.  Terrain passability and
move cost are never consulted. -/
def movementRangeList (s : MapState) : List (Int × Int) :=
  if s.selectedUnitIndex < 0 then []
  else
    let unit := getUnit s s.selectedUnitIndex
    (allTiles s.mapWidth s.mapHeight).filter (fun t =>
      let distance := |t.1 - unit.x| + |t.2 - unit.y|
      if 0 ≤ distance ∧ distance ≤ unit.mov then
        let otherUnit := GetUnitAtPosition s t.1 t.2
        !(decide (0 ≤ otherUnit) && decide (otherUnit ≠ s.selectedUnitIndex))
      else false)

/-- `CalculateMovementRange` as a state operation (clears and refills
`moveRangeTiles`). -/
def CalculateMovementRange (s : MapState) : MapState :=
  { s with moveRangeTiles := movementRangeList s }

/-- Body of the innermost dedup-push of `CalculateAttackRange`
(MapManager.cpp lines 866-875): append the tile unless already present. -/
def attackPush (acc : List (Int × Int)) (t : Int × Int) : List (Int × Int) :=
  if t ∈ acc then acc else acc ++ [t]

/-- Inner double loop of `CalculateAttackRange` for one source tile
`src` inside the movement radius (MapManager.cpp lines 857-879). -/
def attackInnerFold (ux uy moveRange : Int) (src : Int × Int)
    (targets : List (Int × Int)) (acc : List (Int × Int)) : List (Int × Int) :=
  targets.foldl (fun acc2 t =>
    let attackDist := |t.1 - src.1| + |t.2 - src.2|
    if 1 ≤ attackDist ∧ attackDist ≤ 2 then
      let distFromUnit := |t.1 - ux| + |t.2 - uy|
      if 0 ≤ distFromUnit ∧ distFromUnit ≤ moveRange then acc2
      else attackPush acc2 t
    else acc2) acc

/-- Outer double loop of `CalculateAttackRange` (MapManager.cpp lines
849-881): skip source tiles outside the Manhattan movement radius, run
the inner loop for the rest. -/
def attackOuterFold (ux uy m : Int) (targets : List (Int × Int))
    (sources : List (Int × Int)) (acc : List (Int × Int)) : List (Int × Int) :=
  sources.foldl (fun acc2 src =>
    let moveDist := |src.1 - ux| + |src.2 - uy|
    if moveDist > m then acc2
    else attackInnerFold ux uy m src targets acc2) acc

/-- The tile list built by `MapManager::CalculateAttackRange`
(MapManager.cpp lines 839-884): from every in-bounds tile within the
Manhattan movement radius (occupancy is not consulted here), every tile
at Manhattan distance 1 or 2 that is not itself within the movement
radius, deduplicated in push order.  The hardcoded radius is 2. -/
def attackRangeList (s : MapState) : List (Int × Int) :=
  if s.selectedUnitIndex < 0 then []
  else
    let unit := getUnit s s.selectedUnitIndex
    let tiles := allTiles s.mapWidth s.mapHeight
    attackOuterFold unit.x unit.y unit.mov tiles tiles []

/-- `CalculateAttackRange` as a state operation. -/
def CalculateAttackRange (s : MapState) : MapState :=
  { s with attackRangeTiles := attackRangeList s }

/-- `MapManager::IsInMoveRange` (MapManager.cpp lines 886-901). -/
def IsInMoveRange (s : MapState) (x y : Int) : Bool :=
  if s.moveRangeTiles.any (fun t => t.1 == x && t.2 == y) then true
  else if 0 ≤ s.selectedUnitIndex then
    let unit := getUnit s s.selectedUnitIndex
    unit.x == x && unit.y == y
  else false

/-- `MapManager::SelectUnit` (MapManager.cpp lines 764-773). -/
def SelectUnit (s : MapState) : MapState :=
  let unitIndex := GetUnitAtPosition s s.cursorX s.cursorY
  if 0 ≤ unitIndex ∧ (getUnit s unitIndex).type = "player" ∧
      (getUnit s unitIndex).hasMoved = false then
    CalculateAttackRange (CalculateMovementRange
      { s with selectedUnitIndex := unitIndex })
  else s

/-- `MapManager::CancelSelection` (MapManager.cpp lines 775-782). -/
def CancelSelection (s : MapState) : MapState :=
  { s with selectedUnitIndex := -1, moveRangeTiles := [], attackRangeTiles := [],
           showActionMenu := false, selectedActionIndex := 0 }

/-- `MapManager::ConfirmMove` (MapManager.cpp lines 784-806). -/
def ConfirmMove (s : MapState) : MapState :=
  if s.selectedUnitIndex < 0 ∨ IsInMoveRange s s.cursorX s.cursorY = false then s
  else
    let unit := getUnit s s.selectedUnitIndex
    let s1 := { s with originalUnitX := unit.x, originalUnitY := unit.y }
    let s2 := updateUnit s1 s1.selectedUnitIndex
      (fun u => { u with x := s.cursorX, y := s.cursorY })
    { s2 with moveRangeTiles := [], attackRangeTiles := [],
              showActionMenu := true, selectedActionIndex := 0 }

/-- `MapManager::MoveActionSelection` (MapManager.cpp lines 903-909);
the two clamp assignments run in source order. -/
def MoveActionSelection (s : MapState) (delta : Int) : MapState :=
  if s.showActionMenu = false then s
  else
    let idx0 := s.selectedActionIndex + delta
    let idx1 := if idx0 < 0 then 1 else idx0
    let idx2 := if idx1 > 1 then 0 else idx1
    { s with selectedActionIndex := idx2 }

/-- `MapManager::OpenInventory` (MapManager.cpp lines 952-967). -/
def OpenInventory (s : MapState) : MapState :=
  if s.selectedUnitIndex < 0 then s
  else
    let unit := getUnit s s.selectedUnitIndex
    { s with inventoryUnitIndex := s.selectedUnitIndex,
             originalInventory := unit.inventory,
             originalEquippedIndex := unit.equippedItemIndex,
             showInventoryMenu := true, showActionMenu := false,
             showDropConfirmation := false, selectedInventoryIndex := 0 }

/-- `MapManager::ConfirmAction` (MapManager.cpp lines 911-928). -/
def ConfirmAction (s : MapState) : MapState :=
  if s.showActionMenu = false then s
  else if s.selectedActionIndex = 0 then OpenInventory s
  else if s.selectedActionIndex = 1 then
    let s1 := updateUnit s s.selectedUnitIndex (fun u => { u with hasMoved := true })
    { s1 with selectedUnitIndex := -1, showActionMenu := false,
              originalInventory := [], originalEquippedIndex := -1 }
  else s

/-- `MapManager::CancelActionMenu` (MapManager.cpp lines 930-950). -/
def CancelActionMenu (s : MapState) : MapState :=
  if s.showActionMenu = false ∨ s.selectedUnitIndex < 0 then s
  else
    let s1 := updateUnit s s.selectedUnitIndex
      (fun u => { u with x := s.originalUnitX, y := s.originalUnitY })
    let s2 := { s1 with cursorX := s.originalUnitX, cursorY := s.originalUnitY,
                        showActionMenu := false, selectedActionIndex := 0 }
    CalculateAttackRange (CalculateMovementRange s2)

/-- `MapManager::CloseInventory` (MapManager.cpp lines 969-987); note
that only `originalInventory` is cleared, `originalEquippedIndex` keeps
its value, and the action menu is reopened unconditionally. -/
def CloseInventory (s : MapState) : MapState :=
  let s1 :=
    if 0 ≤ s.inventoryUnitIndex ∧ s.inventoryUnitIndex < (s.units.length : Int) then
      updateUnit s s.inventoryUnitIndex (fun u =>
        { u with inventory := s.originalInventory,
                 equippedItemIndex := s.originalEquippedIndex })
    else s
  { s1 with showInventoryMenu := false, showDropConfirmation := false,
            inventoryUnitIndex := -1, selectedInventoryIndex := 0,
            originalInventory := [], showActionMenu := true,
            selectedActionIndex := 0 }

/-- `MapManager::MoveInventorySelection` (MapManager.cpp lines 989-998). -/
def MoveInventorySelection (s : MapState) (delta : Int) : MapState :=
  if s.showInventoryMenu = false ∨ s.inventoryUnitIndex < 0 then s
  else
    let unit := getUnit s s.inventoryUnitIndex
    let maxIndex : Int := (unit.inventory.length : Int) + 1
    let idx0 := s.selectedInventoryIndex + delta
    let idx1 := if idx0 < 0 then maxIndex - 1 else idx0
    let idx2 := if idx1 ≥ maxIndex then 0 else idx1
    { s with selectedInventoryIndex := idx2 }

/-- `MapManager::CancelDropConfirmation` (MapManager.cpp lines 1000-1003). -/
def CancelDropConfirmation (s : MapState) : MapState :=
  { s with showDropConfirmation := false }

/-- The auto-reequip loop of the drop branch (MapManager.cpp lines
1018-1026): first index whose weapon the unit can wield, `-1` when the
scan ends without a hit. -/
def autoEquipLoop (classesData : ClassTable) (weaponsData : WeaponsTable)
    (unit : MapUnit) (items : List String) (i : Int) : Int :=
  match items with
  | [] => -1
  | item :: rest =>
    if CanUnitWieldWeapon classesData unit (GetWeaponData weaponsData item) then i
    else autoEquipLoop classesData weaponsData unit rest (i + 1)

/-- `inventory[i]` read (unchecked in the source; theorems only use it
in bounds). -/
def invItem (inv : List String) (i : Int) : String :=
  inv.getD i.toNat ""

/-- `MapManager::ConfirmInventoryAction` (MapManager.cpp lines
1005-1061): drop-confirmation branch, equip branch, and the
drop-row branch that opens the confirmation dialog. -/
def ConfirmInventoryAction (s : MapState) : MapState :=
  if s.showInventoryMenu = false ∨ s.inventoryUnitIndex < 0 then s
  else
    let unit := getUnit s s.inventoryUnitIndex
    if s.showDropConfirmation then
      if 0 ≤ unit.equippedItemIndex ∧
          unit.equippedItemIndex < (unit.inventory.length : Int) then
        let newInventory := unit.inventory.eraseIdx unit.equippedItemIndex.toNat
        let newEquipped := autoEquipLoop s.classesData s.weaponsData
          { unit with inventory := newInventory, equippedItemIndex := -1 }
          newInventory 0
        let s1 := updateUnit s s.inventoryUnitIndex (fun u =>
          { u with inventory := newInventory, equippedItemIndex := newEquipped })
        let s2 := { s1 with originalInventory := newInventory,
                            originalEquippedIndex := newEquipped }
        let s3 :=
          if s2.selectedInventoryIndex ≥ (newInventory.length : Int) + 1 then
            { s2 with selectedInventoryIndex := (newInventory.length : Int) }
          else s2
        { s3 with showDropConfirmation := false }
      else { s with showDropConfirmation := false }
    else
      if s.selectedInventoryIndex < (unit.inventory.length : Int) then
        let weaponData := GetWeaponData s.weaponsData
          (invItem unit.inventory s.selectedInventoryIndex)
        if CanUnitWieldWeapon s.classesData unit weaponData then
          let s1 := updateUnit s s.inventoryUnitIndex
            (fun u => { u with equippedItemIndex := s.selectedInventoryIndex })
          { s1 with originalEquippedIndex := s.selectedInventoryIndex }
        else s
      else if s.selectedInventoryIndex = (unit.inventory.length : Int) then
        if 0 ≤ unit.equippedItemIndex ∧
            unit.equippedItemIndex < (unit.inventory.length : Int) then
          { s with showDropConfirmation := true }
        else s
      else s

/-- `MapManager::ToggleUnitInfo` (MapManager.cpp lines 1188-1202). -/
def ToggleUnitInfo (s : MapState) : MapState :=
  if s.showUnitInfo then { s with showUnitInfo := false, unitInfoIndex := -1 }
  else
    let unitIndex := GetUnitAtPosition s s.cursorX s.cursorY
    if 0 ≤ unitIndex then
      { s with showUnitInfo := true, unitInfoIndex := unitIndex }
    else s

/-- `static_cast<int>(tileSize * scale)` with the constructor-fixed
`scale = 3.0f`. -/
def scaledTileSize (s : MapState) : Int := 3 * s.tileSize

/-- `MapManager::MoveCamera` (MapManager.cpp lines 683-697): add the
delta, then clamp below at 0, then clamp above at
`mapWidth * scaledTileSize - 1920` (resp. `- 1080`), in that order. -/
def MoveCamera (s : MapState) (dx dy : Int) : MapState :=
  let camX0 := s.cameraX + dx
  let camY0 := s.cameraY + dy
  let maxCameraX := s.mapWidth * scaledTileSize s - 1920
  let maxCameraY := s.mapHeight * scaledTileSize s - 1080
  let camX1 := if camX0 < 0 then 0 else camX0
  let camY1 := if camY0 < 0 then 0 else camY0
  let camX2 := if camX1 > maxCameraX then maxCameraX else camX1
  let camY2 := if camY1 > maxCameraY then maxCameraY else camY1
  { s with cameraX := camX2, cameraY := camY2 }

/-! ### The public interaction operations as a step system -/

/-- The public interaction operations of `MapManager` named by the
interaction contract. -/
inductive MapOp where
  | selectUnit
  | cancelSelection
  | confirmMove
  | moveActionSelection (delta : Int)
  | confirmAction
  | cancelActionMenu
  | openInventory
  | closeInventory
  | moveInventorySelection (delta : Int)
  | confirmInventoryAction
  | cancelDropConfirmation
  | toggleUnitInfo
deriving Repr, DecidableEq

/-- Dispatch one operation to its embedded implementation. -/
def applyOp (s : MapState) : MapOp → MapState
  | MapOp.selectUnit => SelectUnit s
  | MapOp.cancelSelection => CancelSelection s
  | MapOp.confirmMove => ConfirmMove s
  | MapOp.moveActionSelection delta => MoveActionSelection s delta
  | MapOp.confirmAction => ConfirmAction s
  | MapOp.cancelActionMenu => CancelActionMenu s
  | MapOp.openInventory => OpenInventory s
  | MapOp.closeInventory => CloseInventory s
  | MapOp.moveInventorySelection delta => MoveInventorySelection s delta
  | MapOp.confirmInventoryAction => ConfirmInventoryAction s
  | MapOp.cancelDropConfirmation => CancelDropConfirmation s
  | MapOp.toggleUnitInfo => ToggleUnitInfo s

/-- Run a sequence of operations. -/
def runOps (s : MapState) (ops : List MapOp) : MapState :=
  ops.foldl applyOp s

/-- The routing constraint the input dispatcher enforces
(InputHandler.cpp lines 161-228 with the callbacks of main.cpp lines
326-388): while the inventory menu is showing every key is routed to
the inventory callback, so `CancelSelection` and `ConfirmAction` can
only fire while it is hidden, and `CloseInventory` only while it is
showing.  Every other operation is unrestricted here. -/
def opAllowed (s : MapState) : MapOp → Bool
  | MapOp.cancelSelection => !s.showInventoryMenu
  | MapOp.confirmAction => !s.showInventoryMenu
  | MapOp.closeInventory => s.showInventoryMenu
  | _ => true

/-- A sequence of operations each allowed in the state it runs from. -/
def allowedSeq (s : MapState) : List MapOp → Bool
  | [] => true
  | op :: rest => opAllowed s op && allowedSeq (applyOp s op) rest

/-- The menu-index invariant: both stored unit indices are `-1` or in
bounds, an open action menu implies a valid `selectedUnitIndex`, and an
open inventory menu implies both a valid `inventoryUnitIndex` and a
valid `selectedUnitIndex` (the latter is what lets `CloseInventory`
reopen the action menu safely). -/
def stateInvariant (s : MapState) : Prop :=
  (s.selectedUnitIndex = -1 ∨
    (0 ≤ s.selectedUnitIndex ∧ s.selectedUnitIndex < (s.units.length : Int))) ∧
  (s.inventoryUnitIndex = -1 ∨
    (0 ≤ s.inventoryUnitIndex ∧ s.inventoryUnitIndex < (s.units.length : Int))) ∧
  (s.showActionMenu = true →
    0 ≤ s.selectedUnitIndex ∧ s.selectedUnitIndex < (s.units.length : Int)) ∧
  (s.showInventoryMenu = true →
    0 ≤ s.inventoryUnitIndex ∧ s.inventoryUnitIndex < (s.units.length : Int)) ∧
  (s.showInventoryMenu = true →
    0 ≤ s.selectedUnitIndex ∧ s.selectedUnitIndex < (s.units.length : Int))

/-- The state right after a successful `LoadMap` (MapManager.cpp lines
115-140): cursor and camera reset, nothing selected, every menu closed,
ranges and the inventory backup cleared.  `originalUnitX/Y` are the one
pair of fields `LoadMap` does not reset, so they stay parameters. -/
def postLoadState (ts w h : Int) (units : List MapUnit) (wd : WeaponsTable)
    (cd : ClassTable) (ox oy : Int) : MapState :=
  { tileSize := ts, mapWidth := w, mapHeight := h, units := units,
    weaponsData := wd, classesData := cd, cameraX := 0, cameraY := 0,
    cursorX := 0, cursorY := 0, selectedUnitIndex := -1, moveRangeTiles := [],
    attackRangeTiles := [], showActionMenu := false, selectedActionIndex := 0,
    originalUnitX := ox, originalUnitY := oy, showInventoryMenu := false,
    selectedInventoryIndex := 0, inventoryUnitIndex := -1,
    showDropConfirmation := false, originalInventory := [],
    originalEquippedIndex := -1, showUnitInfo := false, unitInfoIndex := -1 }

/-! ### Concrete fixtures for the closed witness and counterexample
theorems -/

/-- Weapon table with all three partitions empty. -/
def emptyWeapons : WeaponsTable := ⟨[], [], []⟩

/-- A fresh post-`LoadMap` style state: cursor and camera at the origin,
nothing selected, no menu open (MapManager.cpp lines 120-139), with the
given dimensions and roster. -/
def mkState (w h : Int) (units : List MapUnit) : MapState :=
  { tileSize := 32, mapWidth := w, mapHeight := h, units := units,
    weaponsData := emptyWeapons, classesData := [], cameraX := 0, cameraY := 0,
    cursorX := 0, cursorY := 0, selectedUnitIndex := -1, moveRangeTiles := [],
    attackRangeTiles := [], showActionMenu := false, selectedActionIndex := 0,
    originalUnitX := 0, originalUnitY := 0, showInventoryMenu := false,
    selectedInventoryIndex := 0, inventoryUnitIndex := -1,
    showDropConfirmation := false, originalInventory := [],
    originalEquippedIndex := -1, showUnitInfo := false, unitInfoIndex := -1 }

/-- A lone player unit standing at `(2, 2)` with `mov = 2`. -/
def soloUnit : MapUnit :=
  { (default : MapUnit) with type := "player", unitId := "u0", x := 2, y := 2, mov := 2 }

/-- 5x5 map, one unit at `(2, 2)` with `mov = 2`, selected: the scenario
named by the spec. -/
def scenario5x5 : MapState :=
  { mkState 5 5 [soloUnit] with selectedUnitIndex := 0, cursorX := 2, cursorY := 2 }

/-- Mover at `(0, 0)` with `mov = 2`. -/
def moverUnit : MapUnit :=
  { (default : MapUnit) with type := "player", unitId := "a", x := 0, y := 0, mov := 2 }

/-- A second unit blocking the adjacent tile `(1, 0)`. -/
def blockerUnit : MapUnit :=
  { (default : MapUnit) with type := "player", unitId := "b", x := 1, y := 0 }

/-- 5x5 map where the selected unit at `(0, 0)` has its neighbour tile
`(1, 0)` occupied by another unit. -/
def blockedState : MapState :=
  { mkState 5 5 [moverUnit, blockerUnit] with selectedUnitIndex := 0 }

/-- A class table with one class, display name "Lord", wielding swords
only. -/
def lordClassTable : ClassTable := [("lord", [⟨"Lord", some ["sword"]⟩])]

/-- A PRF tome restricted to the unit id "alvis". -/
def valflameEntry : WeaponEntry :=
  { id := "valflame", name := some "Valflame", might := 30, hit := 85,
    crit := 0, weight := 7, durability := 40, range := [1, 2], user := "alvis" }

/-- Weapon table whose only entry is the PRF tome. -/
def prfWeapons : WeaponsTable :=
  { generic := [], prf := [("tome", [valflameEntry])], attributed := [] }

/-- A sword-class unit that owns the PRF tome (tomes are outside its
class's permitted types). -/
def alvisUnit : MapUnit :=
  { (default : MapUnit) with
      type := "player", unitId := "alvis", className := "Lord",
      inventory := ["valflame"], equippedItemIndex := -1 }

/-- Inventory menu open on `alvisUnit` with the tome row highlighted. -/
def c4State : MapState :=
  { mkState 3 3 [alvisUnit] with
      weaponsData := prfWeapons, classesData := lordClassTable,
      selectedUnitIndex := 0, showInventoryMenu := true,
      inventoryUnitIndex := 0, selectedInventoryIndex := 0 }

/-- A unit whose highlighted inventory row holds an unknown weapon id
(resolving to a zero-stat default record no class can wield). -/
def ardenUnit : MapUnit :=
  { (default : MapUnit) with
      type := "player", unitId := "arden", className := "Lord",
      inventory := ["mystery"], equippedItemIndex := 0 }

/-- Inventory menu open on `ardenUnit`. -/
def c4wState : MapState :=
  { mkState 3 3 [ardenUnit] with
      classesData := lordClassTable, selectedUnitIndex := 0,
      showInventoryMenu := true, inventoryUnitIndex := 0,
      selectedInventoryIndex := 0 }


/-- A generic iron sword entry. -/
def ironswordEntry : WeaponEntry :=
  { id := "ironsword", name := some "Iron Sword", might := 5, hit := 90,
    crit := 0, weight := 5, durability := 46, range := [1], user := "" }

/-- Weapon table with the generic sword and the PRF tome. -/
def c5Weapons : WeaponsTable :=
  { generic := [("sword", [ironswordEntry])], prf := [("tome", [valflameEntry])],
    attributed := [] }

/-- Sword-class unit holding the sword (equipped) and the owned PRF
tome. -/
def c5Unit : MapUnit :=
  { (default : MapUnit) with
      type := "player", unitId := "alvis", className := "Lord",
      inventory := ["ironsword", "valflame"], equippedItemIndex := 0 }

/-- Drop-confirmation dialog open on `c5Unit`. -/
def c5State : MapState :=
  { mkState 3 3 [c5Unit] with
      weaponsData := c5Weapons, classesData := lordClassTable,
      selectedUnitIndex := 0, showInventoryMenu := true,
      inventoryUnitIndex := 0, selectedInventoryIndex := 2,
      showDropConfirmation := true }

/-- 5x5 empty map: smaller than the 1920x1080 screen. -/
def smallMapState : MapState := mkState 5 5 []

/-- 20x12 empty map: exactly fills the screen width and overflows the
height. -/
def bigMapState : MapState := mkState 20 12 []

/-- A PRF-flagged weapon record whose `user` field is empty. -/
def emptyUserPRF : WeaponData :=
  { id := "w", name := "w", type := "sword", might := 0, hit := 0, crit := 0,
    weight := 0, durability := 0, range := [], user := "", isPRF := true }

/-- A fresh map session on a 2x2 map with one unmoved player unit at
the cursor. -/
def c10Start : MapState := postLoadState 32 2 2 [moverUnit] emptyWeapons [] 0 0

/-- The raw call sequence that drives the interaction state into an
open action menu with no selected unit (possible only because it calls
`CancelSelection` while the inventory menu is open, which the input
dispatcher never does). -/
def c10RogueOps : List MapOp :=
  [MapOp.selectUnit, MapOp.confirmMove, MapOp.confirmAction,
   MapOp.cancelSelection, MapOp.closeInventory]

/-- Inventory menu open on `c5Unit` with the owned PRF tome row
highlighted and the snapshot taken at menu-open time. -/
def c8State : MapState :=
  { mkState 3 3 [c5Unit] with
      weaponsData := c5Weapons, classesData := lordClassTable,
      selectedUnitIndex := 0, showInventoryMenu := true,
      inventoryUnitIndex := 0, selectedInventoryIndex := 1,
      originalInventory := ["ironsword", "valflame"],
      originalEquippedIndex := 0 }

/-! ### Basic lemmas about the tile iteration and the occupancy scan -/

lemma mem_intRange {x n : Int} : x ∈ intRange n ↔ 0 ≤ x ∧ x < n := by
  unfold intRange
  rw [List.mem_map]
  constructor
  · rintro ⟨k, hk, rfl⟩
    rw [List.mem_range] at hk
    omega
  · rintro ⟨h0, hn⟩
    refine ⟨x.toNat, ?_, by omega⟩
    rw [List.mem_range]
    omega

lemma mem_allTiles {t : Int × Int} {w h : Int} :
    t ∈ allTiles w h ↔ 0 ≤ t.1 ∧ t.1 < w ∧ 0 ≤ t.2 ∧ t.2 < h := by
  unfold allTiles
  simp only [List.mem_flatMap, List.mem_map]
  constructor
  · rintro ⟨y, hy, x, hx, rfl⟩
    have h1 := mem_intRange.mp hy
    have h2 := mem_intRange.mp hx
    exact ⟨h2.1, h2.2, h1.1, h1.2⟩
  · rintro ⟨h1, h2, h3, h4⟩
    exact ⟨t.2, mem_intRange.mpr ⟨h3, h4⟩, t.1, mem_intRange.mpr ⟨h1, h2⟩, rfl⟩

/-- Full behaviour of the `GetUnitAtPosition` scan: either no unit
stands on the tile and the result is `-1`, or the result is the start
index plus the offset of a unit standing on the tile. -/
lemma unitIdxAt_spec (units : List MapUnit) (x y i : Int) :
    (unitIdxAt units x y i = -1 ∧ ∀ u ∈ units, ¬(u.x = x ∧ u.y = y)) ∨
    (∃ j : ℕ, ∃ hj : j < units.length,
      unitIdxAt units x y i = i + (j : Int) ∧
      (units.get ⟨j, hj⟩).x = x ∧ (units.get ⟨j, hj⟩).y = y) := by
  induction units generalizing i with
  | nil => exact Or.inl ⟨rfl, by simp⟩
  | cons u rest ih =>
    by_cases hu : u.x = x ∧ u.y = y
    · refine Or.inr ⟨0, by simp, ?_, hu.1, hu.2⟩
      simp [unitIdxAt, hu]
    · rcases ih (i + 1) with ⟨he, hall⟩ | ⟨j, hj, he, hx, hy⟩
      · refine Or.inl ⟨by simpa [unitIdxAt, hu] using he, ?_⟩
        intro v hv
        rcases List.mem_cons.mp hv with rfl | hv
        · exact hu
        · exact hall v hv
      · refine Or.inr ⟨j + 1, by simpa using Nat.succ_lt_succ hj, ?_, ?_, ?_⟩
        · have : unitIdxAt (u :: rest) x y i = unitIdxAt rest x y (i + 1) := by
            simp [unitIdxAt, hu]
          rw [this, he]
          push_cast
          ring
        · simpa using hx
        · simpa using hy

/-- When some unit stands on `(x, y)`, the scan finds a nonnegative
index bounded by the roster size, and the unit at that index stands on
`(x, y)`. -/
lemma GetUnitAtPosition_found {s : MapState} {x y : Int}
    (h : ¬ GetUnitAtPosition s x y < 0) :
    ∃ j : ℕ, ∃ hj : j < s.units.length,
      GetUnitAtPosition s x y = (j : Int) ∧
      (s.units.get ⟨j, hj⟩).x = x ∧ (s.units.get ⟨j, hj⟩).y = y := by
  rcases unitIdxAt_spec s.units x y 0 with ⟨he, _⟩ | ⟨j, hj, he, hx, hy⟩
  · exact absurd (by simp [GetUnitAtPosition, he]) h
  · exact ⟨j, hj, by simpa [GetUnitAtPosition] using he, hx, hy⟩

/-- When no unit stands on `(x, y)`, the scan returns `-1`. -/
lemma GetUnitAtPosition_not_found {s : MapState} {x y : Int}
    (h : ∀ u ∈ s.units, ¬(u.x = x ∧ u.y = y)) :
    GetUnitAtPosition s x y = -1 := by
  rcases unitIdxAt_spec s.units x y 0 with ⟨he, _⟩ | ⟨j, hj, he, hx, hy⟩
  · simpa [GetUnitAtPosition] using he
  · exact absurd ⟨hx, hy⟩ (h _ (List.get_mem _ _ _))

lemma getUnit_eq_get {s : MapState} {j : ℕ} (hj : j < s.units.length) :
    getUnit s (j : Int) = s.units.get ⟨j, hj⟩ := by
  unfold getUnit
  rw [List.getD_eq_getElem?_getD]
  simp [List.getElem?_eq_getElem hj]

/-! ### C1: characterization of the movement range -/

/-- **C1.**  For a selected unit `U` (a valid index that is the first
unit standing on its own tile, which `SelectUnit` guarantees),
`CalculateMovementRange` produces exactly the in-bounds tiles at
Manhattan distance at most `U.mov` from `U` that are not occupied by a
unit other than `U`; `U`'s own tile is included.  Tile passability and
move cost are never consulted (the computation reads no tile data at
all). -/
theorem c1_movement_range_exact (s : MapState)
    (hsel : 0 ≤ s.selectedUnitIndex)
    (hfirst : GetUnitAtPosition s (getUnit s s.selectedUnitIndex).x
        (getUnit s s.selectedUnitIndex).y = s.selectedUnitIndex)
    (x y : Int) :
    ((x, y) ∈ movementRangeList s ↔
      (0 ≤ x ∧ x < s.mapWidth ∧ 0 ≤ y ∧ y < s.mapHeight ∧
       |x - (getUnit s s.selectedUnitIndex).x| +
         |y - (getUnit s s.selectedUnitIndex).y| ≤
           (getUnit s s.selectedUnitIndex).mov ∧
       ((x = (getUnit s s.selectedUnitIndex).x ∧
         y = (getUnit s s.selectedUnitIndex).y) ∨
        ∀ j : ℕ, ∀ hj : j < s.units.length, (j : Int) ≠ s.selectedUnitIndex →
          ¬((s.units.get ⟨j, hj⟩).x = x ∧ (s.units.get ⟨j, hj⟩).y = y)))) := by
  set sel := s.selectedUnitIndex with hselDef
  set u := getUnit s sel with hu
  have hnotlt : ¬ sel < 0 := by omega
  unfold movementRangeList
  rw [if_neg hnotlt]
  rw [List.mem_filter]
  rw [mem_allTiles]
  simp only [← hselDef, ← hu]
  constructor
  · rintro ⟨hbounds, hcond⟩
    refine ⟨hbounds.1, hbounds.2.1, hbounds.2.2.1, hbounds.2.2.2, ?_, ?_⟩
    · by_cases hdist : 0 ≤ |x - u.x| + |y - u.y| ∧ |x - u.x| + |y - u.y| ≤ u.mov
      · exact hdist.2
      · simp only [hdist] at hcond
        exact absurd hcond (by simp)
    · by_cases hdist : 0 ≤ |x - u.x| + |y - u.y| ∧ |x - u.x| + |y - u.y| ≤ u.mov
      · simp only [hdist, if_true] at hcond
        by_cases hpos : x = u.x ∧ y = u.y
        · exact Or.inl hpos
        · refine Or.inr ?_
          intro j hj hne ⟨hjx, hjy⟩
          have hfound : ¬ GetUnitAtPosition s x y < 0 := by
            rcases unitIdxAt_spec s.units x y 0 with ⟨_, hall⟩ | ⟨k, hk, he, hkx, hky⟩
            · exact absurd ⟨hjx, hjy⟩ (hall _ (List.get_mem _ _ _))
            · simp only [GetUnitAtPosition] at *
              omega
          rcases GetUnitAtPosition_found hfound with ⟨k, hk, he, hkx, hky⟩
          have hkne : (k : Int) ≠ sel := by
            intro hksel
            have : getUnit s sel = s.units.get ⟨k, hk⟩ := by
              rw [← hksel]; exact getUnit_eq_get hk
            exact hpos ⟨by rw [hu, this, hkx], by rw [hu, this, hky]⟩
          rw [he] at hcond
          simp at hcond
          exact hkne hcond
      · simp only [hdist] at hcond
        exact absurd hcond (by simp)
  · rintro ⟨h1, h2, h3, h4, hdist, hocc⟩
    refine ⟨⟨h1, h2, h3, h4⟩, ?_⟩
    have habs : (0 : Int) ≤ |x - u.x| + |y - u.y| := by positivity
    simp only [habs, hdist, and_self, if_true, true_and]
    rcases hocc with ⟨hx, hy⟩ | hnone
    · subst hx; subst hy
      rw [hfirst]
      simp
    · have : GetUnitAtPosition s x y < 0 ∨ GetUnitAtPosition s x y = sel := by
        by_cases hlt : GetUnitAtPosition s x y < 0
        · exact Or.inl hlt
        · rcases GetUnitAtPosition_found hlt with ⟨k, hk, he, hkx, hky⟩
          by_cases hksel : (k : Int) = sel
          · exact Or.inr (by rw [he, hksel])
          · exact absurd ⟨hkx, hky⟩ (hnone k hk hksel)
      rcases this with hlt | heq
      · simp only [Bool.not_eq_true']
        rw [Bool.and_eq_false_iff]
        exact Or.inl (by simp; omega)
      · simp only [Bool.not_eq_true']
        rw [Bool.and_eq_false_iff]
        exact Or.inr (by simp [heq])

/-- Witness for C1: concrete 5x5 scenario, the hypotheses hold and the
tile `(3, 2)` (distance 1) is in the computed movement range. -/
theorem c1_movement_range_exact_witness :
    (0 ≤ scenario5x5.selectedUnitIndex ∧
     GetUnitAtPosition scenario5x5
       (getUnit scenario5x5 scenario5x5.selectedUnitIndex).x
       (getUnit scenario5x5 scenario5x5.selectedUnitIndex).y =
         scenario5x5.selectedUnitIndex) ∧
    (3, 2) ∈ movementRangeList scenario5x5 :=
  ⟨⟨by decide, by decide⟩,
   (c1_movement_range_exact scenario5x5 (by decide) (by decide) 3 2).mpr (by decide)⟩

/-! ### C2: the attack-range fold -/

lemma mem_attackPush {acc : List (Int × Int)} {t x : Int × Int} :
    x ∈ attackPush acc t ↔ x ∈ acc ∨ x = t := by
  unfold attackPush
  by_cases h : t ∈ acc
  · rw [if_pos h]
    constructor
    · exact fun hx => Or.inl hx
    · rintro (hx | rfl)
      · exact hx
      · exact h
  · rw [if_neg h]
    simp

lemma nodup_attackPush {acc : List (Int × Int)} {t : Int × Int}
    (h : acc.Nodup) : (attackPush acc t).Nodup := by
  unfold attackPush
  by_cases ht : t ∈ acc
  · rw [if_pos ht]
    exact h
  · rw [if_neg ht]
    rw [List.nodup_append]
    exact ⟨h, List.nodup_singleton t, by simpa using ht⟩

/-- One step of the inner loop. -/
lemma attackInnerFold_cons (ux uy m : Int) (src t0 : Int × Int)
    (rest : List (Int × Int)) (acc : List (Int × Int)) :
    attackInnerFold ux uy m src (t0 :: rest) acc =
      attackInnerFold ux uy m src rest
        (if 1 ≤ |t0.1 - src.1| + |t0.2 - src.2| ∧
            |t0.1 - src.1| + |t0.2 - src.2| ≤ 2 then
          (if 0 ≤ |t0.1 - ux| + |t0.2 - uy| ∧ |t0.1 - ux| + |t0.2 - uy| ≤ m then
            acc
          else attackPush acc t0)
        else acc) := rfl

/-- Membership in the inner loop's result: already collected, or a
target at attack distance 1..2 from the source that is outside the
movement radius. -/
lemma mem_attackInnerFold (ux uy m : Int) (src : Int × Int)
    (targets : List (Int × Int)) (acc : List (Int × Int)) (t : Int × Int) :
    t ∈ attackInnerFold ux uy m src targets acc ↔
      t ∈ acc ∨ (t ∈ targets ∧
        (1 ≤ |t.1 - src.1| + |t.2 - src.2| ∧ |t.1 - src.1| + |t.2 - src.2| ≤ 2) ∧
        ¬(0 ≤ |t.1 - ux| + |t.2 - uy| ∧ |t.1 - ux| + |t.2 - uy| ≤ m)) := by
  induction targets generalizing acc with
  | nil => simp [attackInnerFold]
  | cons t0 rest ih =>
    rw [attackInnerFold_cons, ih]
    by_cases h1 : 1 ≤ |t0.1 - src.1| + |t0.2 - src.2| ∧
        |t0.1 - src.1| + |t0.2 - src.2| ≤ 2
    · by_cases h2 : 0 ≤ |t0.1 - ux| + |t0.2 - uy| ∧ |t0.1 - ux| + |t0.2 - uy| ≤ m
      · rw [if_pos h1, if_pos h2]
        constructor
        · rintro (ha | hb)
          · exact Or.inl ha
          · exact Or.inr ⟨List.mem_cons_of_mem _ hb.1, hb.2⟩
        · rintro (ha | ⟨hmem, hc1, hc2⟩)
          · exact Or.inl ha
          · rcases List.mem_cons.mp hmem with rfl | hmem
            · exact absurd h2 hc2
            · exact Or.inr ⟨hmem, hc1, hc2⟩
      · rw [if_pos h1, if_neg h2]
        rw [mem_attackPush]
        constructor
        · rintro ((ha | rfl) | hb)
          · exact Or.inl ha
          · exact Or.inr ⟨List.mem_cons_self _ _, h1, h2⟩
          · exact Or.inr ⟨List.mem_cons_of_mem _ hb.1, hb.2⟩
        · rintro (ha | ⟨hmem, hc1, hc2⟩)
          · exact Or.inl (Or.inl ha)
          · rcases List.mem_cons.mp hmem with rfl | hmem
            · exact Or.inl (Or.inr rfl)
            · exact Or.inr ⟨hmem, hc1, hc2⟩
    · rw [if_neg h1]
      constructor
      · rintro (ha | hb)
        · exact Or.inl ha
        · exact Or.inr ⟨List.mem_cons_of_mem _ hb.1, hb.2⟩
      · rintro (ha | ⟨hmem, hc1, hc2⟩)
        · exact Or.inl ha
        · rcases List.mem_cons.mp hmem with rfl | hmem
          · exact absurd hc1 h1
          · exact Or.inr ⟨hmem, hc1, hc2⟩

lemma nodup_attackInnerFold (ux uy m : Int) (src : Int × Int)
    (targets : List (Int × Int)) (acc : List (Int × Int))
    (h : acc.Nodup) : (attackInnerFold ux uy m src targets acc).Nodup := by
  induction targets generalizing acc with
  | nil => exact h
  | cons t0 rest ih =>
    rw [attackInnerFold_cons]
    apply ih
    split
    · split
      · exact h
      · exact nodup_attackPush h
    · exact h

/-- One step of the outer loop. -/
lemma attackOuterFold_cons (ux uy m : Int) (targets : List (Int × Int))
    (s0 : Int × Int) (rest : List (Int × Int)) (acc : List (Int × Int)) :
    attackOuterFold ux uy m targets (s0 :: rest) acc =
      attackOuterFold ux uy m targets rest
        (if |s0.1 - ux| + |s0.2 - uy| > m then acc
         else attackInnerFold ux uy m s0 targets acc) := rfl

/-- Membership in the outer loop's result: already collected, or
reachable from some source tile within the movement radius. -/
lemma mem_attackOuterFold (ux uy m : Int) (targets sources : List (Int × Int))
    (acc : List (Int × Int)) (t : Int × Int) :
    t ∈ attackOuterFold ux uy m targets sources acc ↔
      t ∈ acc ∨ ∃ src ∈ sources,
        |src.1 - ux| + |src.2 - uy| ≤ m ∧ t ∈ targets ∧
        (1 ≤ |t.1 - src.1| + |t.2 - src.2| ∧ |t.1 - src.1| + |t.2 - src.2| ≤ 2) ∧
        ¬(0 ≤ |t.1 - ux| + |t.2 - uy| ∧ |t.1 - ux| + |t.2 - uy| ≤ m) := by
  induction sources generalizing acc with
  | nil => simp [attackOuterFold]
  | cons s0 rest ih =>
    rw [attackOuterFold_cons, ih]
    by_cases hm : |s0.1 - ux| + |s0.2 - uy| > m
    · rw [if_pos hm]
      constructor
      · rintro (ha | ⟨src, hsrc, hrest⟩)
        · exact Or.inl ha
        · exact Or.inr ⟨src, List.mem_cons_of_mem _ hsrc, hrest⟩
      · rintro (ha | ⟨src, hsrc, hd, hrest⟩)
        · exact Or.inl ha
        · rcases List.mem_cons.mp hsrc with rfl | hsrc
          · omega
          · exact Or.inr ⟨src, hsrc, hd, hrest⟩
    · rw [if_neg hm, mem_attackInnerFold]
      constructor
      · rintro ((ha | hnew) | ⟨src, hsrc, hrest⟩)
        · exact Or.inl ha
        · exact Or.inr ⟨s0, List.mem_cons_self _ _, by omega, hnew⟩
        · exact Or.inr ⟨src, List.mem_cons_of_mem _ hsrc, hrest⟩
      · rintro (ha | ⟨src, hsrc, hd, hrest⟩)
        · exact Or.inl (Or.inl ha)
        · rcases List.mem_cons.mp hsrc with rfl | hsrc
          · exact Or.inl (Or.inr hrest)
          · exact Or.inr ⟨src, hsrc, hd, hrest⟩

lemma nodup_attackOuterFold (ux uy m : Int) (targets sources : List (Int × Int))
    (acc : List (Int × Int)) (h : acc.Nodup) :
    (attackOuterFold ux uy m targets sources acc).Nodup := by
  induction sources generalizing acc with
  | nil => exact h
  | cons s0 rest ih =>
    rw [attackOuterFold_cons]
    apply ih
    split
    · exact h
    · exact nodup_attackInnerFold _ _ _ _ _ _ h

lemma attackRangeList_eq (s : MapState) (hsel : 0 ≤ s.selectedUnitIndex) :
    attackRangeList s =
      attackOuterFold (getUnit s s.selectedUnitIndex).x
        (getUnit s s.selectedUnitIndex).y (getUnit s s.selectedUnitIndex).mov
        (allTiles s.mapWidth s.mapHeight) (allTiles s.mapWidth s.mapHeight) [] := by
  unfold attackRangeList
  rw [if_neg (by omega)]

/-- **C2 (amended).**  `CalculateAttackRange` produces exactly the
in-bounds tiles `T` whose Manhattan distance from the selected unit
exceeds `mov` such that some in-bounds tile `S` at Manhattan distance at
most `mov` from the unit (occupancy is ignored on both sides, unlike the
occupancy-filtered movement range the claim references) lies at Manhattan
distance 1 or 2 from `T`; the result has no duplicates; and on a 5x5 map
with a lone unit at `(2, 2)` with `mov = 2`, the attack range is exactly
the in-bounds tiles at Manhattan distance 3 or 4 from `(2, 2)`. -/
theorem c2_attack_range_halo (s : MapState) (hsel : 0 ≤ s.selectedUnitIndex) :
    (∀ x y : Int,
      ((x, y) ∈ attackRangeList s ↔
        (0 ≤ x ∧ x < s.mapWidth ∧ 0 ≤ y ∧ y < s.mapHeight ∧
         (getUnit s s.selectedUnitIndex).mov <
           |x - (getUnit s s.selectedUnitIndex).x| +
             |y - (getUnit s s.selectedUnitIndex).y| ∧
         ∃ sx sy : Int, 0 ≤ sx ∧ sx < s.mapWidth ∧ 0 ≤ sy ∧ sy < s.mapHeight ∧
           |sx - (getUnit s s.selectedUnitIndex).x| +
             |sy - (getUnit s s.selectedUnitIndex).y| ≤
               (getUnit s s.selectedUnitIndex).mov ∧
           1 ≤ |x - sx| + |y - sy| ∧ |x - sx| + |y - sy| ≤ 2))) ∧
    (attackRangeList s).Nodup ∧
    (attackRangeList scenario5x5).toFinset =
      ((allTiles 5 5).filter (fun t =>
        decide (|t.1 - 2| + |t.2 - 2| = 3 ∨ |t.1 - 2| + |t.2 - 2| = 4))).toFinset := by
  refine ⟨?_, ?_, by decide⟩
  · intro x y
    rw [attackRangeList_eq s hsel, mem_attackOuterFold]
    set u := getUnit s s.selectedUnitIndex with hu
    simp only [List.not_mem_nil, false_or]
    constructor
    · rintro ⟨src, hsrc, hdist, htar, ⟨ha1, ha2⟩, hnot⟩
      have hb := mem_allTiles.mp htar
      have hsb := mem_allTiles.mp hsrc
      have habs : (0 : Int) ≤ |x - u.x| + |y - u.y| := by positivity
      refine ⟨hb.1, hb.2.1, hb.2.2.1, hb.2.2.2, by omega,
        src.1, src.2, hsb.1, hsb.2.1, hsb.2.2.1, hsb.2.2.2, hdist, ha1, ha2⟩
    · rintro ⟨h1, h2, h3, h4, hgt, sx, sy, hs1, hs2, hs3, hs4, hsd, ha1, ha2⟩
      exact ⟨(sx, sy), mem_allTiles.mpr ⟨hs1, hs2, hs3, hs4⟩, hsd,
        mem_allTiles.mpr ⟨h1, h2, h3, h4⟩, ⟨ha1, ha2⟩, by omega⟩
  · rw [attackRangeList_eq s hsel]
    exact nodup_attackOuterFold _ _ _ _ _ _ List.nodup_nil

/-- Counterexample to C2 as stated: with the neighbour tile `(1, 0)`
occupied by another unit, `(1, 0)` is in-bounds, absent from the
movement range, and at distance 1 from the in-movement-range tile
`(0, 0)`, so the claim requires it in the attack range — but
`CalculateAttackRange` excludes it (its Manhattan distance from the
unit is within `mov`, occupancy notwithstanding). -/
theorem c2_counterexample :
    (1, 0) ∉ attackRangeList blockedState ∧
    (1, 0) ∉ movementRangeList blockedState ∧
    (0, 0) ∈ movementRangeList blockedState ∧
    (0 ≤ (1 : Int) ∧ (1 : Int) < blockedState.mapWidth ∧
     0 ≤ (0 : Int) ∧ (0 : Int) < blockedState.mapHeight) ∧
    (1 ≤ |(1 : Int) - 0| + |(0 : Int) - 0| ∧
     |(1 : Int) - 0| + |(0 : Int) - 0| ≤ 2) := by
  decide

/-- Witness for C2: the hypothesis holds on the concrete 5x5 scenario
and the amended theorem applies there. -/
theorem c2_attack_range_halo_witness :
    0 ≤ scenario5x5.selectedUnitIndex ∧ (attackRangeList scenario5x5).Nodup :=
  ⟨by decide, (c2_attack_range_halo scenario5x5 (by decide)).2.1⟩

/-! ### C3: ConfirmMove then CancelActionMenu restores the unit -/

lemma list_set_getD (l : List MapUnit) (n : Nat) (hn : n < l.length) :
    l.set n (l.getD n default) = l := by
  apply List.ext_getElem
  · simp
  · intro i h1 h2
    rw [List.getElem_set]
    split
    · next heq =>
      subst heq
      rw [List.getD_eq_getElem?_getD, List.getElem?_eq_getElem hn]
      rfl
    · rfl

lemma getD_set_same (l : List MapUnit) (n : Nat) (u : MapUnit) (hn : n < l.length) :
    (l.set n u).getD n default = u := by
  rw [List.getD_eq_getElem?_getD, List.getElem?_set_self (by simpa using hn)]
  rfl

/-- **C3.**  With a unit selected and the cursor inside the movement
range, `ConfirmMove` immediately followed by `CancelActionMenu` leaves
the roster (in particular the selected unit's position) exactly as it
was before `ConfirmMove`, and both cached range lists equal the ranges
recomputed for the restored position. -/
theorem c3_move_cancel_roundtrip (s : MapState)
    (hsel : 0 ≤ s.selectedUnitIndex)
    (hlen : s.selectedUnitIndex < (s.units.length : Int))
    (hrange : IsInMoveRange s s.cursorX s.cursorY = true) :
    (CancelActionMenu (ConfirmMove s)).units = s.units ∧
    (CancelActionMenu (ConfirmMove s)).selectedUnitIndex = s.selectedUnitIndex ∧
    (getUnit (CancelActionMenu (ConfirmMove s)) s.selectedUnitIndex).x =
      (getUnit s s.selectedUnitIndex).x ∧
    (getUnit (CancelActionMenu (ConfirmMove s)) s.selectedUnitIndex).y =
      (getUnit s s.selectedUnitIndex).y ∧
    (CancelActionMenu (ConfirmMove s)).moveRangeTiles =
      movementRangeList (CancelActionMenu (ConfirmMove s)) ∧
    (CancelActionMenu (ConfirmMove s)).attackRangeTiles =
      attackRangeList (CancelActionMenu (ConfirmMove s)) := by
  have hne : ¬(s.selectedUnitIndex < 0 ∨ IsInMoveRange s s.cursorX s.cursorY = false) := by
    push_neg
    exact ⟨by omega, by simp [hrange]⟩
  have h1 : ConfirmMove s = { s with
      originalUnitX := (getUnit s s.selectedUnitIndex).x,
      originalUnitY := (getUnit s s.selectedUnitIndex).y,
      units := s.units.set s.selectedUnitIndex.toNat
        { getUnit s s.selectedUnitIndex with x := s.cursorX, y := s.cursorY },
      moveRangeTiles := [], attackRangeTiles := [],
      showActionMenu := true, selectedActionIndex := 0 } := by
    rw [ConfirmMove, if_neg hne]
    simp only [updateUnit, getUnit]
    rw [if_pos hsel]
  have hn : s.selectedUnitIndex.toNat < s.units.length := by omega
  have hround : (s.units.set s.selectedUnitIndex.toNat
        { getUnit s s.selectedUnitIndex with x := s.cursorX, y := s.cursorY }).set
        s.selectedUnitIndex.toNat
        { (s.units.set s.selectedUnitIndex.toNat
            { getUnit s s.selectedUnitIndex with x := s.cursorX, y := s.cursorY }).getD
            s.selectedUnitIndex.toNat default
          with x := (getUnit s s.selectedUnitIndex).x,
               y := (getUnit s s.selectedUnitIndex).y } = s.units := by
    rw [getD_set_same _ _ _ hn, List.set_set]
    exact list_set_getD s.units s.selectedUnitIndex.toNat hn
  have h2 : CancelActionMenu (ConfirmMove s) =
      CalculateAttackRange (CalculateMovementRange
        { s with cursorX := (getUnit s s.selectedUnitIndex).x,
                 cursorY := (getUnit s s.selectedUnitIndex).y,
                 originalUnitX := (getUnit s s.selectedUnitIndex).x,
                 originalUnitY := (getUnit s s.selectedUnitIndex).y,
                 moveRangeTiles := [], attackRangeTiles := [],
                 showActionMenu := false, selectedActionIndex := 0 }) := by
    have hnot : ¬ s.selectedUnitIndex < 0 := by omega
    simp only [ConfirmMove, CancelActionMenu, updateUnit, getUnit, hrange, hnot, hsel,
      if_false, if_true, Bool.true_eq_false, or_self, or_false, false_or]
    congr 2
    exact congrArg (fun l : List MapUnit =>
      { s with units := l,
               cursorX := (getUnit s s.selectedUnitIndex).x,
               cursorY := (getUnit s s.selectedUnitIndex).y,
               originalUnitX := (getUnit s s.selectedUnitIndex).x,
               originalUnitY := (getUnit s s.selectedUnitIndex).y,
               moveRangeTiles := [], attackRangeTiles := [],
               showActionMenu := false, selectedActionIndex := 0 }) hround
  rw [h2]
  exact ⟨rfl, rfl, rfl, rfl, rfl, rfl⟩

/-- Witness for C3 on the concrete 5x5 scenario (cursor on the unit's
own tile, which is in move range). -/
theorem c3_move_cancel_roundtrip_witness :
    (0 ≤ scenario5x5.selectedUnitIndex ∧
     scenario5x5.selectedUnitIndex < (scenario5x5.units.length : Int) ∧
     IsInMoveRange scenario5x5 scenario5x5.cursorX scenario5x5.cursorY = true) ∧
    (CancelActionMenu (ConfirmMove scenario5x5)).units = scenario5x5.units :=
  ⟨⟨by decide, by decide, by decide⟩,
   (c3_move_cancel_roundtrip scenario5x5 (by decide) (by decide) (by decide)).1⟩

/-! ### C4: rejected equip attempts change nothing -/

/-- **C4 (amended).**  With the inventory menu open, the
drop-confirmation dialog not showing, and the highlighted row holding a
weapon whose type is outside the unit's class's permitted
`weapon_types` set and which is not a PRF weapon whose nonempty `user`
field equals the unit's `unitId`, `ConfirmInventoryAction` changes
nothing at all (in particular `equippedItemIndex` and every other unit
field are unchanged). -/
theorem c4_equip_unwieldable_rejected (s : MapState)
    (hmenu : s.showInventoryMenu = true)
    (hinv0 : 0 ≤ s.inventoryUnitIndex)
    (hdrop : s.showDropConfirmation = false)
    (_hrow0 : 0 ≤ s.selectedInventoryIndex)
    (hrow : s.selectedInventoryIndex <
      ((getUnit s s.inventoryUnitIndex).inventory.length : Int))
    (hclass : classGrantsWeapon s.classesData
      (getUnit s s.inventoryUnitIndex).className
      (GetWeaponData s.weaponsData
        (invItem (getUnit s s.inventoryUnitIndex).inventory
          s.selectedInventoryIndex)).type = false)
    (hprf : ¬((GetWeaponData s.weaponsData
        (invItem (getUnit s s.inventoryUnitIndex).inventory
          s.selectedInventoryIndex)).isPRF = true ∧
      (GetWeaponData s.weaponsData
        (invItem (getUnit s s.inventoryUnitIndex).inventory
          s.selectedInventoryIndex)).user ≠ "" ∧
      (GetWeaponData s.weaponsData
        (invItem (getUnit s s.inventoryUnitIndex).inventory
          s.selectedInventoryIndex)).user =
        (getUnit s s.inventoryUnitIndex).unitId)) :
    ConfirmInventoryAction s = s := by
  have hnot : ¬ s.inventoryUnitIndex < 0 := by omega
  have hwield : CanUnitWieldWeapon s.classesData (getUnit s s.inventoryUnitIndex)
      (GetWeaponData s.weaponsData
        (invItem (getUnit s s.inventoryUnitIndex).inventory
          s.selectedInventoryIndex)) = false := by
    unfold CanUnitWieldWeapon
    split
    · next hcond =>
      rw [Bool.and_eq_true, Bool.not_eq_true', beq_eq_false_iff_ne] at hcond
      rw [beq_eq_false_iff_ne]
      intro heq
      exact hprf ⟨hcond.1, hcond.2, heq⟩
    · exact hclass
  simp only [ConfirmInventoryAction, hmenu, Bool.true_eq_false, hnot, or_self,
    if_false, hdrop, Bool.false_eq_true, hrow, if_true, hwield]

/-- Counterexample to C4 as stated: the highlighted weapon's type
("tome") is outside the class's permitted set (swords only), yet the
equip succeeds because the weapon is PRF and owned by the unit, so
`equippedItemIndex` changes from `-1` to `0`. -/
theorem c4_counterexample :
    c4State.showInventoryMenu = true ∧
    classGrantsWeapon c4State.classesData
      (getUnit c4State c4State.inventoryUnitIndex).className
      (GetWeaponData c4State.weaponsData
        (invItem (getUnit c4State c4State.inventoryUnitIndex).inventory
          c4State.selectedInventoryIndex)).type = false ∧
    (getUnit c4State c4State.inventoryUnitIndex).equippedItemIndex = -1 ∧
    (getUnit (ConfirmInventoryAction c4State)
      c4State.inventoryUnitIndex).equippedItemIndex = 0 := by
  decide

/-- Witness for C4 on a concrete state: the highlighted row's weapon
resolves to an unwieldable record and the action is a no-op. -/
theorem c4_equip_unwieldable_rejected_witness :
    (c4wState.showInventoryMenu = true ∧ 0 ≤ c4wState.inventoryUnitIndex ∧
     c4wState.showDropConfirmation = false) ∧
    ConfirmInventoryAction c4wState = c4wState :=
  ⟨⟨by decide, by decide, by decide⟩,
   c4_equip_unwieldable_rejected c4wState (by decide) (by decide) (by decide)
     (by decide) (by decide) (by decide) (by decide)⟩

/-! ### C5: confirming a drop removes the equipped item and re-equips -/

/-- Full behaviour of the auto-reequip scan. -/
lemma autoEquipLoop_spec (cd : ClassTable) (wd : WeaponsTable) (u : MapUnit)
    (items : List String) (i : Int) :
    (autoEquipLoop cd wd u items i = -1 ∧
      ∀ it ∈ items, CanUnitWieldWeapon cd u (GetWeaponData wd it) = false) ∨
    (∃ j : ℕ, ∃ hj : j < items.length,
      autoEquipLoop cd wd u items i = i + (j : Int) ∧
      CanUnitWieldWeapon cd u (GetWeaponData wd (items.get ⟨j, hj⟩)) = true ∧
      ∀ k : ℕ, k < j →
        CanUnitWieldWeapon cd u (GetWeaponData wd (items.getD k "")) = false) := by
  induction items generalizing i with
  | nil => exact Or.inl ⟨rfl, by simp⟩
  | cons it0 rest ih =>
    by_cases h0 : CanUnitWieldWeapon cd u (GetWeaponData wd it0) = true
    · refine Or.inr ⟨0, by simp, ?_, by simpa using h0, by omega⟩
      simp [autoEquipLoop, h0]
    · rw [Bool.not_eq_true] at h0
      rcases ih (i + 1) with ⟨he, hall⟩ | ⟨j, hj, he, hw, hmin⟩
      · refine Or.inl ⟨by simpa [autoEquipLoop, h0] using he, ?_⟩
        intro v hv
        rcases List.mem_cons.mp hv with rfl | hv
        · exact h0
        · exact hall v hv
      · refine Or.inr ⟨j + 1, by simpa using Nat.succ_lt_succ hj, ?_, by simpa using hw, ?_⟩
        · have : autoEquipLoop cd wd u (it0 :: rest) i =
              autoEquipLoop cd wd u rest (i + 1) := by
            simp [autoEquipLoop, h0]
          rw [this, he]
          push_cast
          ring
        · intro k hk
          cases k with
          | zero => simpa using h0
          | succ k2 =>
            have := hmin k2 (by omega)
            simpa using this

/-- **C5.**  Confirming the drop removes exactly the equipped inventory
entry (`eraseIdx` at the equipped index, preserving the order of the
others, whatever row is highlighted), and then sets
`equippedItemIndex` to the smallest index of a remaining entry the unit
can wield, or `-1` when no remaining entry qualifies. -/
theorem c5_drop_removes_equipped (s : MapState)
    (hmenu : s.showInventoryMenu = true)
    (hinv0 : 0 ≤ s.inventoryUnitIndex)
    (hinvlen : s.inventoryUnitIndex < (s.units.length : Int))
    (hdrop : s.showDropConfirmation = true)
    (he0 : 0 ≤ (getUnit s s.inventoryUnitIndex).equippedItemIndex)
    (helen : (getUnit s s.inventoryUnitIndex).equippedItemIndex <
      ((getUnit s s.inventoryUnitIndex).inventory.length : Int)) :
    (getUnit (ConfirmInventoryAction s) s.inventoryUnitIndex).inventory =
      (getUnit s s.inventoryUnitIndex).inventory.eraseIdx
        (getUnit s s.inventoryUnitIndex).equippedItemIndex.toNat ∧
    ((getUnit (ConfirmInventoryAction s) s.inventoryUnitIndex).inventory.length : Int) + 1 =
      ((getUnit s s.inventoryUnitIndex).inventory.length : Int) ∧
    (((getUnit (ConfirmInventoryAction s) s.inventoryUnitIndex).equippedItemIndex = -1 ∧
      ∀ it ∈ (getUnit (ConfirmInventoryAction s) s.inventoryUnitIndex).inventory,
        CanUnitWieldWeapon s.classesData (getUnit s s.inventoryUnitIndex)
          (GetWeaponData s.weaponsData it) = false) ∨
     (∃ j : ℕ, ∃ hj : j <
        (getUnit (ConfirmInventoryAction s) s.inventoryUnitIndex).inventory.length,
        (getUnit (ConfirmInventoryAction s) s.inventoryUnitIndex).equippedItemIndex =
          (j : Int) ∧
        CanUnitWieldWeapon s.classesData (getUnit s s.inventoryUnitIndex)
          (GetWeaponData s.weaponsData
            ((getUnit (ConfirmInventoryAction s)
              s.inventoryUnitIndex).inventory.get ⟨j, hj⟩)) = true ∧
        ∀ k : ℕ, k < j →
          CanUnitWieldWeapon s.classesData (getUnit s s.inventoryUnitIndex)
            (GetWeaponData s.weaponsData
              ((getUnit (ConfirmInventoryAction s)
                s.inventoryUnitIndex).inventory.getD k "")) = false)) := by
  have hnot : ¬ s.inventoryUnitIndex < 0 := by omega
  have hcond : 0 ≤ (getUnit s s.inventoryUnitIndex).equippedItemIndex ∧
      (getUnit s s.inventoryUnitIndex).equippedItemIndex <
        ((getUnit s s.inventoryUnitIndex).inventory.length : Int) := ⟨he0, helen⟩
  have hn : s.inventoryUnitIndex.toNat < s.units.length := by omega
  have hunits : (ConfirmInventoryAction s).units =
      s.units.set s.inventoryUnitIndex.toNat
        { getUnit s s.inventoryUnitIndex with
            inventory := (getUnit s s.inventoryUnitIndex).inventory.eraseIdx
              (getUnit s s.inventoryUnitIndex).equippedItemIndex.toNat,
            equippedItemIndex := autoEquipLoop s.classesData s.weaponsData
              { getUnit s s.inventoryUnitIndex with
                  inventory := (getUnit s s.inventoryUnitIndex).inventory.eraseIdx
                    (getUnit s s.inventoryUnitIndex).equippedItemIndex.toNat,
                  equippedItemIndex := -1 }
              ((getUnit s s.inventoryUnitIndex).inventory.eraseIdx
                (getUnit s s.inventoryUnitIndex).equippedItemIndex.toNat) 0 } := by
    by_cases hsel3 : s.selectedInventoryIndex ≥
        (((getUnit s s.inventoryUnitIndex).inventory.eraseIdx
          (getUnit s s.inventoryUnitIndex).equippedItemIndex.toNat).length : Int) + 1
    · simp only [ConfirmInventoryAction, hmenu, Bool.true_eq_false, hnot, or_self,
        if_false, hdrop, if_true, hcond, updateUnit, hinv0, hsel3, and_self]
    · simp only [ConfirmInventoryAction, hmenu, Bool.true_eq_false, hnot, or_self,
        if_false, hdrop, if_true, hcond, updateUnit, hinv0, hsel3, and_self,
        if_false]
  have hu2 : getUnit (ConfirmInventoryAction s) s.inventoryUnitIndex =
      { getUnit s s.inventoryUnitIndex with
          inventory := (getUnit s s.inventoryUnitIndex).inventory.eraseIdx
            (getUnit s s.inventoryUnitIndex).equippedItemIndex.toNat,
          equippedItemIndex := autoEquipLoop s.classesData s.weaponsData
            { getUnit s s.inventoryUnitIndex with
                inventory := (getUnit s s.inventoryUnitIndex).inventory.eraseIdx
                  (getUnit s s.inventoryUnitIndex).equippedItemIndex.toNat,
                equippedItemIndex := -1 }
            ((getUnit s s.inventoryUnitIndex).inventory.eraseIdx
              (getUnit s s.inventoryUnitIndex).equippedItemIndex.toNat) 0 } := by
    show (ConfirmInventoryAction s).units.getD s.inventoryUnitIndex.toNat default = _
    rw [hunits]
    exact getD_set_same _ _ _ hn
  rw [hu2]
  refine ⟨rfl, ?_, ?_⟩
  · have hlen : ((getUnit s s.inventoryUnitIndex).inventory.eraseIdx
        (getUnit s s.inventoryUnitIndex).equippedItemIndex.toNat).length =
        (getUnit s s.inventoryUnitIndex).inventory.length - 1 := by
      rw [List.length_eraseIdx]
      rw [if_pos (by omega)]
    simp only [hlen]
    omega
  · rcases autoEquipLoop_spec s.classesData s.weaponsData
      { getUnit s s.inventoryUnitIndex with
          inventory := (getUnit s s.inventoryUnitIndex).inventory.eraseIdx
            (getUnit s s.inventoryUnitIndex).equippedItemIndex.toNat,
          equippedItemIndex := -1 }
      ((getUnit s s.inventoryUnitIndex).inventory.eraseIdx
        (getUnit s s.inventoryUnitIndex).equippedItemIndex.toNat) 0
      with ⟨he, hall⟩ | ⟨j, hj, he, hw, hmin⟩
    · exact Or.inl ⟨he, fun it hit => hall it hit⟩
    · refine Or.inr ⟨j, hj, by rw [he]; ring, hw, fun k hk => hmin k hk⟩

/-- Witness for C5 on a concrete state: dropping the equipped sword
keeps the remaining tome (index order preserved). -/
theorem c5_drop_removes_equipped_witness :
    (c5State.showInventoryMenu = true ∧ c5State.showDropConfirmation = true ∧
     0 ≤ (getUnit c5State c5State.inventoryUnitIndex).equippedItemIndex) ∧
    (getUnit (ConfirmInventoryAction c5State) c5State.inventoryUnitIndex).inventory =
      (getUnit c5State c5State.inventoryUnitIndex).inventory.eraseIdx 0 :=
  ⟨⟨by decide, by decide, by decide⟩,
   (c5_drop_removes_equipped c5State (by decide) (by decide) (by decide)
     (by decide) (by decide) (by decide)).1⟩

/-! ### C6: camera clamping -/

/-- **C6 (amended).**  `MoveCamera` sets each camera coordinate to
`min (max (old + delta) 0) (mapSizePx - screenSize)`: when the upper
bound is nonnegative the result lies in `[0, bound]`; when the map is
smaller than the screen (negative bound) the camera ends at the
negative bound itself, not at 0. -/
theorem c6_camera_clamp (s : MapState) (dx dy : Int) :
    (MoveCamera s dx dy).cameraX =
      min (max (s.cameraX + dx) 0) (s.mapWidth * scaledTileSize s - 1920) ∧
    (MoveCamera s dx dy).cameraY =
      min (max (s.cameraY + dy) 0) (s.mapHeight * scaledTileSize s - 1080) ∧
    (0 ≤ s.mapWidth * scaledTileSize s - 1920 →
      0 ≤ (MoveCamera s dx dy).cameraX ∧
      (MoveCamera s dx dy).cameraX ≤ s.mapWidth * scaledTileSize s - 1920) ∧
    (0 ≤ s.mapHeight * scaledTileSize s - 1080 →
      0 ≤ (MoveCamera s dx dy).cameraY ∧
      (MoveCamera s dx dy).cameraY ≤ s.mapHeight * scaledTileSize s - 1080) ∧
    (s.mapWidth * scaledTileSize s - 1920 < 0 →
      (MoveCamera s dx dy).cameraX = s.mapWidth * scaledTileSize s - 1920) ∧
    (s.mapHeight * scaledTileSize s - 1080 < 0 →
      (MoveCamera s dx dy).cameraY = s.mapHeight * scaledTileSize s - 1080) := by
  simp only [MoveCamera, scaledTileSize]
  refine ⟨?_, ?_, ?_, ?_, ?_, ?_⟩ <;> (split_ifs <;> omega)

/-- Counterexample to C6 as stated: on a 5x5 map (480px wide, screen
1920px) the upper bound is negative and the camera coordinate ends at
the negative bound, not at 0. -/
theorem c6_counterexample :
    smallMapState.mapWidth * scaledTileSize smallMapState - 1920 < 0 ∧
    (MoveCamera smallMapState 0 0).cameraX = -1440 ∧
    (MoveCamera smallMapState 0 0).cameraX ≠ 0 := by
  decide

/-- Witness for C6: on a map at least as large as the screen the
clamped coordinate is nonnegative. -/
theorem c6_camera_clamp_witness :
    0 ≤ bigMapState.mapWidth * scaledTileSize bigMapState - 1920 ∧
    0 ≤ (MoveCamera bigMapState 5 7).cameraX :=
  ⟨by decide, ((c6_camera_clamp bigMapState 5 7).2.2.1 (by decide)).1⟩

/-! ### C7: PRF weapon permission -/

/-- **C7 (amended).**  For a weapon with `isPRF = true` and a nonempty
`user` field, `CanUnitWieldWeapon` returns true exactly when `user`
equals the unit id (the class table plays no role); when the `user`
field is empty the PRF short-circuit is skipped and the ordinary class
weapon-type check decides. -/
theorem c7_prf_ownership (cd : ClassTable) (unit : MapUnit)
    (weapon : WeaponData) (hprf : weapon.isPRF = true) :
    (weapon.user ≠ "" →
      (CanUnitWieldWeapon cd unit weapon = true ↔ weapon.user = unit.unitId)) ∧
    (weapon.user = "" →
      CanUnitWieldWeapon cd unit weapon =
        classGrantsWeapon cd unit.className weapon.type) := by
  unfold CanUnitWieldWeapon
  constructor
  · intro hu
    rw [if_pos (by simp [hprf, hu])]
    simp
  · intro hu
    rw [if_neg (by simp [hu])]

/-- Counterexample to C7 as stated: a PRF weapon with an empty `user`
field, held against a unit whose `unitId` is also empty, satisfies
`weapon.user = unit.unitId`, yet `CanUnitWieldWeapon` returns false
(it falls through to the class scan). -/
theorem c7_counterexample :
    emptyUserPRF.isPRF = true ∧
    emptyUserPRF.user = (default : MapUnit).unitId ∧
    CanUnitWieldWeapon [] (default : MapUnit) emptyUserPRF = false := by
  decide

/-- Witness for C7: the PRF tome looked up from the table has a
nonempty owner and the ownership equivalence holds for its owner. -/
theorem c7_prf_ownership_witness :
    (GetWeaponData prfWeapons "valflame").isPRF = true ∧
    (GetWeaponData prfWeapons "valflame").user ≠ "" ∧
    (CanUnitWieldWeapon lordClassTable alvisUnit
        (GetWeaponData prfWeapons "valflame") = true ↔
      (GetWeaponData prfWeapons "valflame").user = alvisUnit.unitId) :=
  ⟨by decide, by decide,
   (c7_prf_ownership lordClassTable alvisUnit (GetWeaponData prfWeapons "valflame")
     (by decide)).1 (by decide)⟩

/-! ### C9: unknown weapon ids resolve to the zero-stat default -/

lemma findEntry_eq_none {part : List (String × List WeaponEntry)}
    {weaponId : String}
    (h : ∀ p ∈ part, ∀ w ∈ p.2, w.id ≠ weaponId) :
    findEntry part weaponId = none := by
  induction part with
  | nil => rfl
  | cons p rest ih =>
    obtain ⟨ty, arr⟩ := p
    unfold findEntry
    have harr : arr.find? (fun w => w.id == weaponId) = none := by
      rw [List.find?_eq_none]
      intro w hw
      simpa using h (ty, arr) (List.mem_cons_self _ _) w hw
    rw [harr]
    exact ih (fun q hq w hw => h q (List.mem_cons_of_mem _ hq) w hw)

/-- **C9.**  For a weapon id present in none of the three partitions,
`GetWeaponData` returns the default record: `name` equal to the id,
all numeric stats (might, hit, crit, weight, durability) zero, empty
range, `isPRF = false`.  The embedded lookup is a total function, so
the path never throws. -/
theorem c9_unknown_weapon_default (wd : WeaponsTable) (weaponId : String)
    (hg : ∀ p ∈ wd.generic, ∀ w ∈ p.2, w.id ≠ weaponId)
    (hp : ∀ p ∈ wd.prf, ∀ w ∈ p.2, w.id ≠ weaponId)
    (ha : ∀ p ∈ wd.attributed, ∀ w ∈ p.2, w.id ≠ weaponId) :
    GetWeaponData wd weaponId =
      { id := weaponId, name := weaponId, type := "", might := 0, hit := 0,
        crit := 0, weight := 0, durability := 0, range := [], user := "",
        isPRF := false } := by
  unfold GetWeaponData
  rw [findEntry_eq_none hg, findEntry_eq_none hp, findEntry_eq_none ha]

/-- Witness for C9: an id absent from a nonempty table resolves to the
default record. -/
theorem c9_unknown_weapon_default_witness :
    (∀ p ∈ c5Weapons.generic, ∀ w ∈ p.2, w.id ≠ "unknownblade") ∧
    GetWeaponData c5Weapons "unknownblade" =
      { id := "unknownblade", name := "unknownblade", type := "", might := 0,
        hit := 0, crit := 0, weight := 0, durability := 0, range := [],
        user := "", isPRF := false } :=
  ⟨by decide,
   c9_unknown_weapon_default c5Weapons "unknownblade" (by decide) (by decide)
     (by decide)⟩

/-! ### C8: a committed equip survives CloseInventory -/

/-- **C8.**  With the inventory menu open (snapshot equal to the live
inventory, as `OpenInventory` establishes) and a wieldable weapon on
the highlighted row, `ConfirmInventoryAction` followed by
`CloseInventory` leaves the unit with `equippedItemIndex` equal to the
newly equipped row and the inventory equal to its menu-open contents:
the equip writes `originalEquippedIndex` through immediately, so the
restore in `CloseInventory` does not undo it. -/
theorem c8_equip_survives_close (s : MapState)
    (hmenu : s.showInventoryMenu = true)
    (hinv0 : 0 ≤ s.inventoryUnitIndex)
    (hinvlen : s.inventoryUnitIndex < (s.units.length : Int))
    (hdrop : s.showDropConfirmation = false)
    (_hrow0 : 0 ≤ s.selectedInventoryIndex)
    (hrow : s.selectedInventoryIndex <
      ((getUnit s s.inventoryUnitIndex).inventory.length : Int))
    (hsnap : s.originalInventory = (getUnit s s.inventoryUnitIndex).inventory)
    (hwield : CanUnitWieldWeapon s.classesData (getUnit s s.inventoryUnitIndex)
      (GetWeaponData s.weaponsData
        (invItem (getUnit s s.inventoryUnitIndex).inventory
          s.selectedInventoryIndex)) = true) :
    (getUnit (CloseInventory (ConfirmInventoryAction s))
        s.inventoryUnitIndex).equippedItemIndex = s.selectedInventoryIndex ∧
    (getUnit (CloseInventory (ConfirmInventoryAction s))
        s.inventoryUnitIndex).inventory =
      (getUnit s s.inventoryUnitIndex).inventory := by
  have hnot : ¬ s.inventoryUnitIndex < 0 := by omega
  have hn : s.inventoryUnitIndex.toNat < s.units.length := by omega
  have h1 : ConfirmInventoryAction s =
      { s with
          units := s.units.set s.inventoryUnitIndex.toNat
            { getUnit s s.inventoryUnitIndex with
                equippedItemIndex := s.selectedInventoryIndex },
          originalEquippedIndex := s.selectedInventoryIndex } := by
    simp only [ConfirmInventoryAction, hmenu, Bool.true_eq_false, hnot, or_self,
      if_false, hdrop, Bool.false_eq_true, hrow, if_true, hwield, updateUnit,
      hinv0]
  have hn2 : s.inventoryUnitIndex.toNat <
      (s.units.set s.inventoryUnitIndex.toNat
        { getUnit s s.inventoryUnitIndex with
            equippedItemIndex := s.selectedInventoryIndex }).length := by
    simpa using hn
  rw [h1]
  simp only [CloseInventory, updateUnit, getUnit, List.length_set]
  rw [if_pos ⟨hinv0, hinvlen⟩]
  rw [if_pos hinv0]
  rw [getD_set_same]
  · exact ⟨rfl, hsnap⟩
  · simpa using hn

/-- Witness for C8: equipping the owned PRF tome (row 1) then closing
the inventory keeps it equipped. -/
theorem c8_equip_survives_close_witness :
    (c8State.showInventoryMenu = true ∧
     c8State.originalInventory = (getUnit c8State c8State.inventoryUnitIndex).inventory) ∧
    (getUnit (CloseInventory (ConfirmInventoryAction c8State))
        c8State.inventoryUnitIndex).equippedItemIndex = 1 :=
  ⟨⟨by decide, by decide⟩,
   (c8_equip_survives_close c8State (by decide) (by decide) (by decide)
     (by decide) (by decide) (by decide) (by decide) (by decide)).1⟩

/-! ### C10: the menu-index invariant under dispatcher-legal sequences -/

/-- The occupancy scan returns `-1` or a valid index. -/
lemma GetUnitAtPosition_cases (s : MapState) (x y : Int) :
    GetUnitAtPosition s x y = -1 ∨
    (0 ≤ GetUnitAtPosition s x y ∧
      GetUnitAtPosition s x y < (s.units.length : Int)) := by
  rcases unitIdxAt_spec s.units x y 0 with ⟨he, _⟩ | ⟨j, hj, he, _, _⟩
  · exact Or.inl (by simpa [GetUnitAtPosition] using he)
  · right
    rw [GetUnitAtPosition, he]
    constructor
    · omega
    · exact_mod_cast by omega

lemma selIdx_cmr (s : MapState) :
    (CalculateMovementRange s).selectedUnitIndex = s.selectedUnitIndex := rfl

lemma selIdx_car (s : MapState) :
    (CalculateAttackRange s).selectedUnitIndex = s.selectedUnitIndex := rfl

lemma invIdx_cmr (s : MapState) :
    (CalculateMovementRange s).inventoryUnitIndex = s.inventoryUnitIndex := rfl

lemma invIdx_car (s : MapState) :
    (CalculateAttackRange s).inventoryUnitIndex = s.inventoryUnitIndex := rfl

lemma units_cmr (s : MapState) : (CalculateMovementRange s).units = s.units := rfl

lemma units_car (s : MapState) : (CalculateAttackRange s).units = s.units := rfl

lemma actMenu_cmr (s : MapState) :
    (CalculateMovementRange s).showActionMenu = s.showActionMenu := rfl

lemma actMenu_car (s : MapState) :
    (CalculateAttackRange s).showActionMenu = s.showActionMenu := rfl

lemma invMenu_cmr (s : MapState) :
    (CalculateMovementRange s).showInventoryMenu = s.showInventoryMenu := rfl

lemma invMenu_car (s : MapState) :
    (CalculateAttackRange s).showInventoryMenu = s.showInventoryMenu := rfl

/-- Every dispatcher-allowed operation preserves the menu-index
invariant. -/
lemma stateInvariant_applyOp (s : MapState) (op : MapOp)
    (hJ : stateInvariant s) (hop : opAllowed s op = true) :
    stateInvariant (applyOp s op) := by
  obtain ⟨hA, hB, hC, hD, hE⟩ := hJ
  cases op with
  | selectUnit =>
    show stateInvariant (SelectUnit s)
    simp only [SelectUnit]
    split
    · next hcond =>
      rcases GetUnitAtPosition_cases s s.cursorX s.cursorY with hm | ⟨h0, hlt⟩
      · exact absurd hcond.1 (by omega)
      · exact ⟨Or.inr ⟨h0, hlt⟩, hB, fun _ => ⟨h0, hlt⟩, hD, fun _ => ⟨h0, hlt⟩⟩
    · exact ⟨hA, hB, hC, hD, hE⟩
  | cancelSelection =>
    show stateInvariant (CancelSelection s)
    have hinv : s.showInventoryMenu = false := by
      simpa [opAllowed] using hop
    simp only [CancelSelection]
    refine ⟨Or.inl rfl, hB, ?_, ?_, ?_⟩
    · simp
    · simp [hinv]
    · simp [hinv]
  | confirmMove =>
    show stateInvariant (ConfirmMove s)
    simp only [ConfirmMove, updateUnit]
    split
    · exact ⟨hA, hB, hC, hD, hE⟩
    · next hcond =>
      push_neg at hcond
      have hsel : 0 ≤ s.selectedUnitIndex := by omega
      have hlt : s.selectedUnitIndex < (s.units.length : Int) := by
        rcases hA with h | h
        · omega
        · exact h.2
      rw [if_pos hsel]
      simp only [stateInvariant, List.length_set]
      exact ⟨Or.inr ⟨hsel, hlt⟩, hB, fun _ => ⟨hsel, hlt⟩,
        fun h => hD h, fun _ => ⟨hsel, hlt⟩⟩
  | moveActionSelection delta =>
    show stateInvariant (MoveActionSelection s delta)
    simp only [MoveActionSelection]
    split
    · exact ⟨hA, hB, hC, hD, hE⟩
    · exact ⟨hA, hB, hC, hD, hE⟩
  | confirmAction =>
    show stateInvariant (ConfirmAction s)
    have hinv : s.showInventoryMenu = false := by
      simpa [opAllowed] using hop
    simp only [ConfirmAction, updateUnit]
    split
    · exact ⟨hA, hB, hC, hD, hE⟩
    · next hmenu =>
      rw [Bool.not_eq_false] at hmenu
      split
      · simp only [OpenInventory]
        split
        · exact ⟨hA, hB, hC, hD, hE⟩
        · next hselpos =>
          push_neg at hselpos
          have hlt : s.selectedUnitIndex < (s.units.length : Int) :=
            (hC hmenu).2
          refine ⟨hA, Or.inr ⟨hselpos, hlt⟩, ?_,
            fun _ => ⟨hselpos, hlt⟩, fun _ => ⟨hselpos, hlt⟩⟩
          simp
      · split
        · split
          · refine ⟨Or.inl rfl, ?_, ?_, ?_, ?_⟩
            · simpa using hB
            · simp
            · simp [hinv]
            · simp [hinv]
          · refine ⟨Or.inl rfl, hB, ?_, ?_, ?_⟩
            · simp
            · simp [hinv]
            · simp [hinv]
        · exact ⟨hA, hB, hC, hD, hE⟩
  | cancelActionMenu =>
    show stateInvariant (CancelActionMenu s)
    simp only [CancelActionMenu, updateUnit]
    split
    · exact ⟨hA, hB, hC, hD, hE⟩
    · next hcond =>
      push_neg at hcond
      have hsel : 0 ≤ s.selectedUnitIndex := by omega
      have hlt : s.selectedUnitIndex < (s.units.length : Int) := by
        rcases hA with h | h
        · omega
        · exact h.2
      rw [if_pos hsel]
      simp only [stateInvariant, selIdx_car, selIdx_cmr, invIdx_car, invIdx_cmr,
        units_car, units_cmr, actMenu_car, actMenu_cmr, invMenu_car, invMenu_cmr,
        List.length_set]
      exact ⟨Or.inr ⟨hsel, hlt⟩, hB, fun _ => ⟨hsel, hlt⟩,
        fun h => hD h, fun _ => ⟨hsel, hlt⟩⟩
  | openInventory =>
    show stateInvariant (OpenInventory s)
    simp only [OpenInventory]
    split
    · exact ⟨hA, hB, hC, hD, hE⟩
    · next hselpos =>
      push_neg at hselpos
      have hlt : s.selectedUnitIndex < (s.units.length : Int) := by
        rcases hA with h | h
        · omega
        · exact h.2
      refine ⟨hA, Or.inr ⟨hselpos, hlt⟩, ?_,
        fun _ => ⟨hselpos, hlt⟩, fun _ => ⟨hselpos, hlt⟩⟩
      simp
  | closeInventory =>
    show stateInvariant (CloseInventory s)
    have hinv : s.showInventoryMenu = true := by
      simpa [opAllowed] using hop
    have hsel := hE hinv
    simp only [CloseInventory, updateUnit]
    split
    · split
      · refine ⟨Or.inr (by simpa using hsel), Or.inl rfl,
          fun _ => by simpa using hsel, ?_, ?_⟩
        · simp
        · simp
      · refine ⟨Or.inr hsel, Or.inl rfl, fun _ => hsel, ?_, ?_⟩
        · simp
        · simp
    · refine ⟨Or.inr hsel, Or.inl rfl, fun _ => hsel, ?_, ?_⟩
      · simp
      · simp
  | moveInventorySelection delta =>
    show stateInvariant (MoveInventorySelection s delta)
    simp only [MoveInventorySelection]
    split
    · exact ⟨hA, hB, hC, hD, hE⟩
    · exact ⟨hA, hB, hC, hD, hE⟩
  | confirmInventoryAction =>
    show stateInvariant (ConfirmInventoryAction s)
    simp only [ConfirmInventoryAction, updateUnit]
    split
    all_goals try split
    all_goals try split
    all_goals try split
    all_goals try split
    all_goals simp only [stateInvariant, List.length_set]
    all_goals exact ⟨hA, hB, hC, hD, hE⟩
  | cancelDropConfirmation =>
    show stateInvariant (CancelDropConfirmation s)
    exact ⟨hA, hB, hC, hD, hE⟩
  | toggleUnitInfo =>
    show stateInvariant (ToggleUnitInfo s)
    simp only [ToggleUnitInfo]
    split
    · exact ⟨hA, hB, hC, hD, hE⟩
    · split
      · exact ⟨hA, hB, hC, hD, hE⟩
      · exact ⟨hA, hB, hC, hD, hE⟩

/-- The invariant is preserved along any dispatcher-allowed sequence. -/
lemma stateInvariant_runOps (ops : List MapOp) (s : MapState)
    (hJ : stateInvariant s) (hseq : allowedSeq s ops = true) :
    stateInvariant (runOps s ops) := by
  induction ops generalizing s with
  | nil => exact hJ
  | cons op rest ih =>
    rw [allowedSeq, Bool.and_eq_true] at hseq
    exact ih (applyOp s op) (stateInvariant_applyOp s op hJ hseq.1) hseq.2

/-- **C10 (amended).**  From the state a successful `LoadMap` produces,
every sequence of public interaction operations that respects the input
dispatcher's routing (`CancelSelection` and `ConfirmAction` never fire
while the inventory menu is showing, `CloseInventory` only while it is)
preserves the invariant that an open action menu implies
`0 ≤ selectedUnitIndex < units.size()` and an open inventory menu
implies `0 ≤ inventoryUnitIndex < units.size()`, so the unchecked
roster accesses in `ConfirmAction` and `ConfirmInventoryAction` stay in
bounds. -/
theorem c10_menu_indices_in_bounds (ts w h : Int) (units : List MapUnit)
    (wd : WeaponsTable) (cd : ClassTable) (ox oy : Int) (ops : List MapOp)
    (hseq : allowedSeq (postLoadState ts w h units wd cd ox oy) ops = true) :
    ((runOps (postLoadState ts w h units wd cd ox oy) ops).showActionMenu = true →
      0 ≤ (runOps (postLoadState ts w h units wd cd ox oy) ops).selectedUnitIndex ∧
      (runOps (postLoadState ts w h units wd cd ox oy) ops).selectedUnitIndex <
        (((runOps (postLoadState ts w h units wd cd ox oy) ops).units.length : Int))) ∧
    ((runOps (postLoadState ts w h units wd cd ox oy) ops).showInventoryMenu = true →
      0 ≤ (runOps (postLoadState ts w h units wd cd ox oy) ops).inventoryUnitIndex ∧
      (runOps (postLoadState ts w h units wd cd ox oy) ops).inventoryUnitIndex <
        (((runOps (postLoadState ts w h units wd cd ox oy) ops).units.length : Int))) := by
  have hJ0 : stateInvariant (postLoadState ts w h units wd cd ox oy) := by
    refine ⟨Or.inl rfl, Or.inl rfl, ?_, ?_, ?_⟩ <;> simp [postLoadState]
  have h := stateInvariant_runOps ops _ hJ0 hseq
  exact ⟨h.2.2.1, h.2.2.2.1⟩

/-- Counterexample to C10 as stated: the raw sequence SelectUnit,
ConfirmMove, ConfirmAction (opening the inventory), CancelSelection,
CloseInventory — all public interaction operations, starting from a
loaded map — ends with the action menu open and no selected unit, so
the invariant fails and the subsequent `ConfirmAction` Wait branch
would index `units[-1]`. -/
theorem c10_counterexample :
    (runOps c10Start c10RogueOps).showActionMenu = true ∧
    (runOps c10Start c10RogueOps).selectedUnitIndex = -1 := by
  decide

/-- Witness for C10: a concrete dispatcher-legal sequence satisfies the
guard and the conclusion applies. -/
theorem c10_menu_indices_in_bounds_witness :
    allowedSeq c10Start [MapOp.selectUnit, MapOp.confirmMove] = true ∧
    ((runOps c10Start [MapOp.selectUnit, MapOp.confirmMove]).showActionMenu = true →
      0 ≤ (runOps c10Start [MapOp.selectUnit, MapOp.confirmMove]).selectedUnitIndex ∧
      (runOps c10Start [MapOp.selectUnit, MapOp.confirmMove]).selectedUnitIndex <
        (((runOps c10Start
          [MapOp.selectUnit, MapOp.confirmMove]).units.length : Int))) :=
  ⟨by decide,
   (c10_menu_indices_in_bounds 32 2 2 [moverUnit] emptyWeapons [] 0 0
     [MapOp.selectUnit, MapOp.confirmMove] (by decide)).1⟩

end Lehran
